import Mathlib

/-!
Verification of the NeuroPlan ASCII task-graph pipeline (`graph.py`):
link extraction (`find_links`), force-directed layout (`force_layout`),
Bresenham line rasterization (`draw_line`), grid rendering
(`render_to_grid`) and the orchestrating `generate_ascii_graph`.

Modelling conventions:
* Python float arithmetic is modelled exactly over `ℚ`.  `math.sqrt` is not
  rational-valued, so it is passed in as an explicit function parameter
  `sqrtF : ℚ → ℚ`; every theorem quantifies over it (no verified property
  depends on the value of a square root).
* Python's built-in `hash` on strings is salted per process; it is modelled
  as an explicit function parameter `hashF : String → Int`.
* Python `int()` truncation toward zero on a rational is `pyInt`.
* Python dicts are modelled as association lists with unique-key update
  (`updateNode`) and first-occurrence lookup, preserving insertion order.
* `list(set(...))` is modelled as `List.dedup` (Python's set iteration
  order is unspecified; no verified property depends on that order).
-/

namespace NeuroPlan

/-- The projection of `task_manager.Task` consumed by `graph.py`. -/
structure Task where
  id : String
  title : String
  description : String
  parent_id : Option String
deriving Repr, DecidableEq

/-- Character class of the reference-token pattern `[[([a-f0-9\-]+)]]`. -/
def isLinkChar (c : Char) : Bool :=
  ('a' ≤ c && c ≤ 'f') || ('0' ≤ c && c ≤ '9') || c = '-'

/-- Left-to-right, non-overlapping scan for `[[<linkchars>+]]` matches,
returning the captured identifiers.  The `fuel` argument only makes the
recursion structural (every recursive call strictly shrinks the scanned
list, so `fuel = l.length` never runs out); it does not alter behavior. -/
def scanLinksAux : Nat → List Char → List String
  | 0, _ => []
  | fuel + 1, l =>
    match l with
    | '[' :: '[' :: rest =>
      let run := rest.takeWhile isLinkChar
      match rest.dropWhile isLinkChar with
      | ']' :: ']' :: tail =>
        if run.isEmpty then scanLinksAux fuel ('[' :: rest)
        else String.mk run :: scanLinksAux fuel tail
      | _ => scanLinksAux fuel ('[' :: rest)
    | _ :: rest => scanLinksAux fuel rest
    | [] => []

/-- The semantics of `re.findall(r'\[\[([a-f0-9\-]+)\]\]', s)` on the
character list of `s`. -/
def scanLinks (l : List Char) : List String :=
  scanLinksAux l.length l

/-- The per-task link discovery of `find_links`: edges from reference
tokens in the description (guarded against self-reference), then the
parent link (guarded by Python truthiness of `parent_id` and membership;
note the source has no self-reference guard on the parent link). -/
def taskLinks (ids : List String) (t : Task) : List (String × String) :=
  ((scanLinks t.description.toList).filter
      (fun tid => tid ∈ ids && t.id ≠ tid)).map (fun tid => (t.id, tid))
  ++ (match t.parent_id with
      | some p => if p ≠ "" && p ∈ ids then [(t.id, p)] else []
      | none => [])

/-- `find_links` from `graph.py`: collect all discovered links and apply
`list(set(links))`. -/
def find_links (tasks : List Task) : List (String × String) :=
  let ids := tasks.map (·.id)
  (tasks.flatMap (taskLinks ids)).dedup

/-- The layout-internal node record: `{title, x, y, dx, dy}` with exact
rational coordinates standing for Python floats. -/
structure Node where
  title : String
  x : ℚ
  y : ℚ
  dx : ℚ
  dy : ℚ
deriving Repr, DecidableEq

/-- A Python dict of nodes: association list in insertion order. -/
abbrev NodeMap := List (String × Node)

/-- Python dict lookup (first occurrence). -/
def lookupNode : NodeMap → String → Option Node
  | [], _ => none
  | (k, v) :: t, c => if c = k then some v else lookupNode t c

/-- In-place update of the value at `id` (first occurrence), as mutation of
a Python dict entry.  Keys and their order are untouched. -/
def updateNode : NodeMap → String → (Node → Node) → NodeMap
  | [], _, _ => []
  | (k, v) :: t, id, f =>
    if k = id then (k, f v) :: t else (k, v) :: updateNode t id f

/-- Force accumulated on one node by the repulsion pass: reset to zero,
then accumulate `k²/distance` pushes from every other node
(`distance = sqrt(dx²+dy²) + 0.01`, guarded by `distance > 0` as in the
source). -/
def repulseNode (sqrtF : ℚ → ℚ) (k : ℚ) (ns : NodeMap) (p : String × Node) :
    Node :=
  let acc := ns.foldl (fun (acc : ℚ × ℚ) q =>
    if p.1 ≠ q.1 then
      let dx := p.2.x - q.2.x
      let dy := p.2.y - q.2.y
      let distance := sqrtF (dx ^ 2 + dy ^ 2) + 1 / 100
      if distance > 0 then
        let force := k ^ 2 / distance
        (acc.1 + dx / distance * force, acc.2 + dy / distance * force)
      else acc
    else acc) (0, 0)
  { p.2 with dx := acc.1, dy := acc.2 }

/-- Repulsion pass of one `force_layout` iteration. -/
def repulse (sqrtF : ℚ → ℚ) (k : ℚ) (ns : NodeMap) : NodeMap :=
  ns.map (fun p => (p.1, repulseNode sqrtF k ns p))

/-- Attraction step for one edge: skip it if either endpoint is missing,
otherwise pull both endpoints together, with the force multiplied by 2.5
when either endpoint is the (truthy) central node.  The four accumulator
updates mirror the source's four in-place mutations. -/
def edgeStep (sqrtF : ℚ → ℚ) (k : ℚ) (central : Option String)
    (ns : NodeMap) (e : String × String) : NodeMap :=
  match lookupNode ns e.1, lookupNode ns e.2 with
  | some n1, some n2 =>
    let dx := n1.x - n2.x
    let dy := n1.y - n2.y
    let distance := sqrtF (dx ^ 2 + dy ^ 2) + 1 / 100
    let force0 := distance ^ 2 / k
    let force :=
      if (match central with
          | some c => c ≠ "" && (e.1 = c || e.2 = c)
          | none => false) then force0 * (5 / 2) else force0
    updateNode
      (updateNode
        (updateNode
          (updateNode ns e.1 (fun n => { n with dx := n.dx - dx / distance * force }))
          e.2 (fun n => { n with dx := n.dx + dx / distance * force }))
        e.1 (fun n => { n with dy := n.dy - dy / distance * force }))
      e.2 (fun n => { n with dy := n.dy + dy / distance * force })
  | _, _ => ns

/-- Attraction pass: fold the edge list through `edgeStep`. -/
def attract (sqrtF : ℚ → ℚ) (k : ℚ) (central : Option String)
    (edges : List (String × String)) (ns : NodeMap) : NodeMap :=
  edges.foldl (edgeStep sqrtF k central) ns

/-- Integration of one node: the central node is pinned to exact canvas
center `(width/2, height/2)`; every other node moves by `0.01` times its
force accumulator and is clamped to `[0, width-1] × [0, height-1]`. -/
def integrateNode (width height : ℤ) (central : Option String)
    (p : String × Node) : Node :=
  if central = some p.1 then
    { p.2 with x := (width : ℚ) / 2, y := (height : ℚ) / 2 }
  else
    let x1 := p.2.x + p.2.dx * (1 / 100)
    let y1 := p.2.y + p.2.dy * (1 / 100)
    { p.2 with
      x := min ((width : ℚ) - 1) (max 0 x1),
      y := min ((height : ℚ) - 1) (max 0 y1) }

/-- Integration pass of one `force_layout` iteration. -/
def integrate (width height : ℤ) (central : Option String) (ns : NodeMap) :
    NodeMap :=
  ns.map (fun p => (p.1, integrateNode width height central p))

/-- One full simulation iteration of `force_layout`. -/
def layoutStep (sqrtF : ℚ → ℚ) (k : ℚ) (edges : List (String × String))
    (width height : ℤ) (central : Option String) (ns : NodeMap) : NodeMap :=
  integrate width height central (attract sqrtF k central edges (repulse sqrtF k ns))

/-- Run `n` simulation iterations. -/
def layoutLoop (sqrtF : ℚ → ℚ) (k : ℚ) (edges : List (String × String))
    (width height : ℤ) (central : Option String) : Nat → NodeMap → NodeMap
  | 0, ns => ns
  | n + 1, ns => layoutLoop sqrtF k edges width height central n
      (layoutStep sqrtF k edges width height central ns)

/-- `force_layout` from `graph.py` (default `iterations = 100` at the call
sites).  `sqrtF` stands for `math.sqrt`. -/
def force_layout (sqrtF : ℚ → ℚ) (nodes : NodeMap)
    (edges : List (String × String)) (width height : ℤ)
    (iterations : Nat) (central_node_id : Option String) : NodeMap :=
  if nodes = [] then []
  else
    let k := sqrtF (((width * height : ℤ) : ℚ) / (nodes.length : ℚ))
    layoutLoop sqrtF k edges width height central_node_id iterations nodes

/-- Python `int()` truncation (toward zero) of a rational. -/
def pyInt (q : ℚ) : ℤ := q.num.tdiv (q.den : ℤ)

/-- The character grid: `height` rows of `width` cells. -/
abbrev Grid := List (List Char)

/-- Read cell `(row y, column x)`; out-of-range reads default to a space
(all uses are guarded to be in range). -/
def getCell (g : Grid) (y x : Nat) : Char := (g.getD y []).getD x ' '

/-- Write cell `(row y, column x)`; `List.set` ignores out-of-range
writes (all uses are guarded to be in range). -/
def setCell (g : Grid) (y x : Nat) (c : Char) : Grid :=
  g.set y ((g.getD y []).set x c)

/-- The guarded plot inside `draw_line`'s loop: mark `(x, y)` with `.`
only when it is inside the grid and currently blank. -/
def plot (g : Grid) (x y : ℤ) : Grid :=
  if 0 ≤ y ∧ y < (g.length : ℤ) ∧ 0 ≤ x ∧ x < ((g.headD []).length : ℤ) ∧
      getCell g y.toNat x.toNat = ' ' then
    setCell g y.toNat x.toNat '.'
  else g

/-- Bresenham loop of `draw_line`: plot, stop at `(x2, y2)`, otherwise
advance `x1` and/or `y1` and recurse.  `fuel` only makes the recursion
structural; `draw_line` supplies enough fuel for the loop to always reach
its break (proved below). -/
def bresLoop (x2 y2 dx dy sx sy : ℤ) :
    Nat → ℤ → ℤ → ℤ → Grid → Option Grid
  | 0, _, _, _, _ => none
  | fuel + 1, x1, y1, err, g =>
    let g1 := plot g x1 y1
    if x1 = x2 ∧ y1 = y2 then some g1
    else
      bresLoop x2 y2 dx dy sx sy fuel
        (if dy ≤ 2 * err then x1 + sx else x1)
        (if 2 * err ≤ dx then y1 + sy else y1)
        (err + (if dy ≤ 2 * err then dy else 0) +
          (if 2 * err ≤ dx then dx else 0))
        g1

/-- `draw_line` from `graph.py`.  The fallback to the untouched grid is
dead code: the loop always returns (proved below). -/
def draw_line (g : Grid) (x1 y1 x2 y2 : ℤ) : Grid :=
  let dx := |x2 - x1|
  let dy := -|y2 - y1|
  let sx : ℤ := if x1 < x2 then 1 else -1
  let sy : ℤ := if y1 < y2 then 1 else -1
  (bresLoop x2 y2 dx dy sx sy (dx - dy + 1).toNat x1 y1 (dx + dy) g).getD g

/-- Edge pass of `render_to_grid` for one edge: silently skip an edge
with a missing endpoint, otherwise rasterize a line between the
integer-truncated endpoint coordinates. -/
def edgeDraw (ns : NodeMap) (g : Grid) (e : String × String) : Grid :=
  match lookupNode ns e.1, lookupNode ns e.2 with
  | some n1, some n2 =>
    draw_line g (pyInt n1.x) (pyInt n1.y) (pyInt n2.x) (pyInt n2.y)
  | _, _ => g

/-- The label-character loop: write successive characters at columns
`x, x+1, ...` of row `y`, each write guarded by `column < width`. -/
def writeChars : Grid → ℤ → ℤ → ℤ → List Char → Grid
  | g, _, _, _, [] => g
  | g, y, x, w, c :: cs =>
    writeChars (if x < w then setCell g y.toNat x.toNat c else g) y (x + 1) w cs

/-- A node's rendered label: the title truncated to 10 characters,
wrapped in angle brackets for the central node and square brackets
otherwise. -/
def nodeLabel (central : Option String) (p : String × Node) : String :=
  let title := p.2.title.take 10
  if central = some p.1 then "<" ++ title ++ ">" else "[" ++ title ++ "]"

/-- Node pass of `render_to_grid` for one node: write the label only when
`0 ≤ y < height` and `0 ≤ x < width - len(label)`. -/
def drawLabel (width height : ℤ) (central : Option String) (g : Grid)
    (p : String × Node) : Grid :=
  let x := pyInt p.2.x
  let y := pyInt p.2.y
  let label := nodeLabel central p
  if 0 ≤ y ∧ y < height ∧ 0 ≤ x ∧ x < width - (label.length : ℤ) then
    writeChars g y x width label.toList
  else g

/-- `render_to_grid` from `graph.py`: blank grid, then edges, then node
labels on top. -/
def render_to_grid (nodes : NodeMap) (edges : List (String × String))
    (width height : ℤ) (central_node_id : Option String) : Grid :=
  let g0 := List.replicate height.toNat (List.replicate width.toNat ' ')
  let g1 := edges.foldl (edgeDraw nodes) g0
  nodes.foldl (drawLabel width height central_node_id) g1

/-- Python dict insertion: replace the value in place if the key exists,
otherwise append. -/
def dictInsert (m : NodeMap) (k : String) (v : Node) : NodeMap :=
  if (lookupNode m k).isSome then updateNode m k (fun _ => v)
  else m ++ [(k, v)]

/-- The node-map comprehension of `generate_ascii_graph`: each task starts
near the canvas center with a jitter derived from `hash(id)` and
`hash(title)`.  The force accumulators (absent from the Python dict until
the first layout iteration writes them) start at 0; `repulse` overwrites
them before any read. -/
def buildNodes (hashF : String → Int) (width height : ℤ)
    (tasks : List Task) : NodeMap :=
  tasks.foldl (fun m t =>
    dictInsert m t.id
      { title := t.title
        x := (width : ℚ) / 2 + ((hashF t.id % 10 - 5 : ℤ) : ℚ)
        y := (height : ℚ) / 2 + ((hashF t.title % 10 - 5 : ℤ) : ℚ)
        dx := 0, dy := 0 }) []

/-- Serialize the grid: join each row's characters, join rows with
newlines. -/
def gridToString (g : Grid) : String :=
  String.intercalate "\n" (g.map (fun row => String.mk row))

/-- `generate_ascii_graph` from `graph.py`: placeholder for an empty task
list; placeholder for no edges with more than one task; otherwise layout
on the inset canvas `(width-12) × (height-4)` and render on the full
canvas. -/
def generate_ascii_graph (sqrtF : ℚ → ℚ) (hashF : String → Int)
    (tasks : List Task) (width height : ℤ)
    (central_node_id : Option String) : String :=
  if tasks = [] then "No tasks to build a graph from."
  else
    let nodes_map := buildNodes hashF width height tasks
    let edges := find_links tasks
    if edges = [] ∧ 1 < tasks.length then
      "No links or parent-child relationships found between tasks."
    else
      gridToString (render_to_grid
        (force_layout sqrtF nodes_map edges (width - 12) (height - 4) 100
          central_node_id)
        edges width height central_node_id)

/-! ### Concrete instances used by witnesses and counterexamples -/

/-- A concrete stand-in for `math.sqrt` in closed instances (no verified
property depends on the square root's value). -/
def sqrtOne : ℚ → ℚ := fun _ => 1

/-- A concrete string-hash as seen by one Python process (hash salt A). -/
def hashZero : String → Int := fun _ => 0

/-- A concrete string-hash as seen by another Python process (hash salt
B): Python salts `hash` of strings per process. -/
def hashSeven : String → Int := fun _ => 7

/-- A single task with no links. -/
def taskSolo : Task := { id := "a", title := "t", description := "", parent_id := none }

/-- A task whose description references task `b`. -/
def taskRef : Task := { id := "a", title := "x", description := "[[b]]", parent_id := none }

/-- A task whose parent is task `a`. -/
def taskChild : Task := { id := "b", title := "y", description := "", parent_id := some "a" }

/-- A task that is its own parent. -/
def taskSelf : Task := { id := "a", title := "t", description := "", parent_id := some "a" }

/-- A concrete layout node. -/
def nodePin : Node := { title := "t", x := 3, y := 0, dx := 0, dy := 0 }

/-- A concrete 1 × 7 grid fully marked with edge dots. -/
def gDots : Grid := [List.replicate 7 '.']

/-- A task with no links at all (id `a`). -/
def taskPlain : Task := { id := "a", title := "x", description := "", parent_id := none }

/-- `taskSolo`'s initial node under `hashZero` on a 16 × 8 canvas. -/
def nSoloA0 : Node := { title := "t", x := 3, y := -1, dx := 0, dy := 0 }

/-- `nSoloA0` after one clamping iteration on the inset 4 × 4 canvas. -/
def nSoloA1 : Node := { title := "t", x := 3, y := 0, dx := 0, dy := 0 }

/-- `taskSolo`'s initial node under `hashSeven` on a 16 × 8 canvas. -/
def nSoloB0 : Node := { title := "t", x := 10, y := 6, dx := 0, dy := 0 }

/-- `nSoloB0` after one clamping iteration on the inset 4 × 4 canvas. -/
def nSoloB1 : Node := { title := "t", x := 3, y := 3, dx := 0, dy := 0 }

/-- `taskPlain`'s initial node under `hashZero` on a 14 × 6 canvas. -/
def nPairA0 : Node := { title := "x", x := 2, y := -2, dx := 0, dy := 0 }

/-- `taskChild`'s initial node under `hashZero` on a 14 × 6 canvas. -/
def nPairB0 : Node := { title := "y", x := 2, y := -2, dx := 0, dy := 0 }

/-- `nPairA0` after one clamping iteration on the inset 2 × 2 canvas. -/
def nPairA1 : Node := { title := "x", x := 1, y := 0, dx := 0, dy := 0 }

/-- `nPairB0` after one clamping iteration on the inset 2 × 2 canvas. -/
def nPairB1 : Node := { title := "y", x := 1, y := 0, dx := 0, dy := 0 }

/-- An edge both of whose endpoints are present in the node map
(formalization device for the skipping claims). -/
def goodEdge (ns : NodeMap) (e : String × String) : Bool :=
  (lookupNode ns e.1).isSome && (lookupNode ns e.2).isSome

/-- A grid of exactly `h` rows, each of exactly `w` cells (formalization
device for the shape claims). -/
abbrev gridShape (g : Grid) (h w : Nat) : Prop :=
  g.length = h ∧ ∀ row ∈ g, row.length = w

/-! ### Lookup and key-preservation lemmas for the layout passes -/

theorem isSome_opt_map (o : Option Node) (f : Node → Node) :
    (o.map f).isSome = o.isSome := by
  cases o <;> rfl

theorem lookup_map_keyfix (F : String × Node → Node) (ns : NodeMap)
    (c : String) :
    lookupNode (ns.map (fun p => (p.1, F p))) c =
      (lookupNode ns c).map (fun v => F (c, v)) := by
  induction ns with
  | nil => rfl
  | cons h t ih =>
    obtain ⟨k, v⟩ := h
    by_cases hc : c = k
    · subst hc
      simp [lookupNode]
    · simp [lookupNode, hc, ih]

theorem lookup_updateNode (ns : NodeMap) (k : String) (f : Node → Node)
    (c : String) :
    lookupNode (updateNode ns k f) c =
      if c = k then (lookupNode ns c).map f else lookupNode ns c := by
  induction ns with
  | nil => simp [updateNode, lookupNode]
  | cons h t ih =>
    obtain ⟨k', v⟩ := h
    by_cases hk : k' = k
    · subst hk
      by_cases hc : c = k'
      · subst hc
        simp [updateNode, lookupNode]
      · simp [updateNode, lookupNode, hc]
    · by_cases hc : c = k'
      · subst hc
        simp [updateNode, hk, lookupNode]
      · simp [updateNode, hk, lookupNode, hc, ih]

theorem isSome_lookup_updateNode (ns : NodeMap) (k : String)
    (f : Node → Node) (c : String) :
    (lookupNode (updateNode ns k f) c).isSome = (lookupNode ns c).isSome := by
  rw [lookup_updateNode]
  split <;> simp

theorem lookup_repulse (sqrtF : ℚ → ℚ) (k : ℚ) (ns : NodeMap) (c : String) :
    lookupNode (repulse sqrtF k ns) c =
      (lookupNode ns c).map (fun v => repulseNode sqrtF k ns (c, v)) :=
  lookup_map_keyfix _ ns c

theorem lookup_integrate (width height : ℤ) (central : Option String)
    (ns : NodeMap) (c : String) :
    lookupNode (integrate width height central ns) c =
      (lookupNode ns c).map
        (fun v => integrateNode width height central (c, v)) :=
  lookup_map_keyfix _ ns c

theorem isSome_lookup_edgeStep (sqrtF : ℚ → ℚ) (k : ℚ)
    (central : Option String) (ns : NodeMap) (e : String × String)
    (c : String) :
    (lookupNode (edgeStep sqrtF k central ns e) c).isSome =
      (lookupNode ns c).isSome := by
  unfold edgeStep
  cases h1 : lookupNode ns e.1 with
  | none => rfl
  | some n1 =>
    cases h2 : lookupNode ns e.2 with
    | none => rfl
    | some n2 =>
      simp only [isSome_lookup_updateNode]

theorem isSome_lookup_attract (sqrtF : ℚ → ℚ) (k : ℚ)
    (central : Option String) (edges : List (String × String)) (ns : NodeMap)
    (c : String) :
    (lookupNode (attract sqrtF k central edges ns) c).isSome =
      (lookupNode ns c).isSome := by
  induction edges generalizing ns with
  | nil => rfl
  | cons e t ih =>
    simp only [attract, List.foldl_cons] at *
    rw [ih, isSome_lookup_edgeStep]

theorem isSome_lookup_layoutStep (sqrtF : ℚ → ℚ) (k : ℚ)
    (edges : List (String × String)) (width height : ℤ)
    (central : Option String) (ns : NodeMap) (c : String) :
    (lookupNode (layoutStep sqrtF k edges width height central ns) c).isSome =
      (lookupNode ns c).isSome := by
  unfold layoutStep
  rw [lookup_integrate, isSome_opt_map, isSome_lookup_attract,
    lookup_repulse, isSome_opt_map]

/-- After one simulation iteration, every lookup of the central node's id
returns a node sitting exactly at `(width/2, height/2)`. -/
theorem lookup_layoutStep_central (sqrtF : ℚ → ℚ) (k : ℚ)
    (edges : List (String × String)) (width height : ℤ) (c : String)
    (ns : NodeMap) (v : Node)
    (h : lookupNode (layoutStep sqrtF k edges width height (some c) ns) c =
      some v) :
    v.x = (width : ℚ) / 2 ∧ v.y = (height : ℚ) / 2 := by
  unfold layoutStep at h
  rw [lookup_integrate] at h
  cases hl : lookupNode (attract sqrtF k (some c) edges (repulse sqrtF k ns)) c with
  | none => rw [hl] at h; simp at h
  | some w =>
    rw [hl] at h
    simp only [Option.map_some'] at h
    obtain rfl : integrateNode width height (some c) (c, w) = v := by
      injection h
    simp [integrateNode]

/-- The pin survives the rest of the run: running `n+1` iterations leaves
the central node exactly at `(width/2, height/2)` whenever its id is
present in the node map. -/
theorem layoutLoop_pins (sqrtF : ℚ → ℚ) (k : ℚ)
    (edges : List (String × String)) (width height : ℤ) (c : String) :
    ∀ (n : Nat) (ns : NodeMap), (lookupNode ns c).isSome →
      ∃ v, lookupNode (layoutLoop sqrtF k edges width height (some c) (n + 1)
          ns) c = some v ∧
        v.x = (width : ℚ) / 2 ∧ v.y = (height : ℚ) / 2 := by
  intro n
  induction n with
  | zero =>
    intro ns hs
    have hstep : (lookupNode (layoutStep sqrtF k edges width height (some c)
        ns) c).isSome := by
      rw [isSome_lookup_layoutStep]; exact hs
    obtain ⟨v, hv⟩ := Option.isSome_iff_exists.mp hstep
    exact ⟨v, hv, lookup_layoutStep_central sqrtF k edges width height c ns v hv⟩
  | succ m ih =>
    intro ns hs
    have hs' : (lookupNode (layoutStep sqrtF k edges width height (some c)
        ns) c).isSome := by
      rw [isSome_lookup_layoutStep]; exact hs
    exact ih _ hs'

/-- Focus pinning for a full `force_layout` run of at least one
iteration. -/
theorem force_layout_pins (sqrtF : ℚ → ℚ) (nodes : NodeMap)
    (edges : List (String × String)) (width height : ℤ)
    (iterations : Nat) (c : String)
    (hit : 1 ≤ iterations) (hmem : (lookupNode nodes c).isSome) :
    ∃ v, lookupNode (force_layout sqrtF nodes edges width height iterations
        (some c)) c = some v ∧
      v.x = (width : ℚ) / 2 ∧ v.y = (height : ℚ) / 2 := by
  have hne : nodes ≠ [] := by
    rintro rfl; simp [lookupNode] at hmem
  obtain ⟨m, rfl⟩ : ∃ m, iterations = m + 1 :=
    ⟨iterations - 1, by omega⟩
  unfold force_layout
  rw [if_neg hne]
  exact layoutLoop_pins sqrtF _ edges width height c m nodes hmem

/-! ### Bounds lemmas for the integration pass -/

/-- Every node output by the integration pass lies in
`[0, width-1] × [0, height-1]`, provided `width ≥ 2` and `height ≥ 2`
(so that the pinned center `(width/2, height/2)` also fits). -/
theorem mem_integrate_bounds (width height : ℤ) (central : Option String)
    (ns : NodeMap) (hw : 2 ≤ width) (hh : 2 ≤ height) :
    ∀ p ∈ integrate width height central ns,
      0 ≤ p.2.x ∧ p.2.x ≤ (width : ℚ) - 1 ∧
      0 ≤ p.2.y ∧ p.2.y ≤ (height : ℚ) - 1 := by
  have hw' : (2 : ℚ) ≤ (width : ℚ) := by exact_mod_cast hw
  have hh' : (2 : ℚ) ≤ (height : ℚ) := by exact_mod_cast hh
  intro p hp
  simp only [integrate, List.mem_map] at hp
  obtain ⟨q, _, rfl⟩ := hp
  simp only [integrateNode]
  split
  · constructor
    · simp only [Node.x]; linarith
    · constructor
      · simp only [Node.x]; linarith
      · constructor
        · simp only [Node.y]; linarith
        · simp only [Node.y]; linarith
  · refine ⟨?_, ?_, ?_, ?_⟩
    · exact le_min (by linarith) (le_max_left 0 _)
    · exact min_le_left _ _
    · exact le_min (by linarith) (le_max_left 0 _)
    · exact min_le_left _ _

/-- Bounds hold after any positive number of iterations. -/
theorem layoutLoop_bounds (sqrtF : ℚ → ℚ) (k : ℚ)
    (edges : List (String × String)) (width height : ℤ)
    (central : Option String) (hw : 2 ≤ width) (hh : 2 ≤ height) :
    ∀ (n : Nat) (ns : NodeMap),
      ∀ p ∈ layoutLoop sqrtF k edges width height central (n + 1) ns,
        0 ≤ p.2.x ∧ p.2.x ≤ (width : ℚ) - 1 ∧
        0 ≤ p.2.y ∧ p.2.y ≤ (height : ℚ) - 1 := by
  intro n
  induction n with
  | zero =>
    intro ns p hp
    exact mem_integrate_bounds width height central _ hw hh p hp
  | succ m ih =>
    intro ns p hp
    exact ih _ p hp

/-! ### Claim theorems -/

/-- C1: in `force_layout`, whenever the designated focus node is present
in the node map, at the end of every simulation iteration (equivalently,
after running any positive number of iterations, hence also at the end of
the run) the focus node's position is exactly `(width/2, height/2)`,
regardless of the forces accumulated for it. -/
theorem C1_focus_pinned (sqrtF : ℚ → ℚ) (nodes : NodeMap)
    (edges : List (String × String)) (width height : ℤ)
    (iterations : Nat) (c : String)
    (hit : 1 ≤ iterations) (hmem : (lookupNode nodes c).isSome) :
    ∃ v, lookupNode (force_layout sqrtF nodes edges width height iterations
        (some c)) c = some v ∧
      v.x = (width : ℚ) / 2 ∧ v.y = (height : ℚ) / 2 :=
  force_layout_pins sqrtF nodes edges width height iterations c hit hmem

/-- Witness for C1: a concrete run (one node, pinned) satisfying the
hypotheses and the conclusion. -/
theorem C1_focus_pinned_witness :
    (1 ≤ 1 ∧ (lookupNode [("a", nodePin)] "a").isSome = true) ∧
    ∃ v, lookupNode (force_layout sqrtOne [("a", nodePin)] [] 4 4 1
        (some "a")) "a" = some v ∧
      v.x = ((4 : ℤ) : ℚ) / 2 ∧ v.y = ((4 : ℤ) : ℚ) / 2 :=
  ⟨⟨le_refl 1, by decide⟩,
    C1_focus_pinned sqrtOne [("a", nodePin)] [] 4 4 1 "a" (le_refl 1)
      (by decide)⟩

/-- C2 as stated is false: with `width = height = 1` (both positive) and a
designated focus node, `force_layout` leaves the focus node at
`(1/2, 1/2)`, and `1/2 > width - 1 = 0`, outside the claimed bounds. -/
theorem C2_bounds_counterexample :
    ∃ v, lookupNode (force_layout sqrtOne [("a", nodePin)] [] 1 1 100
        (some "a")) "a" = some v ∧
      ¬(v.x ≤ (1 : ℚ) - 1) := by
  obtain ⟨v, hv, hx, hy⟩ :=
    force_layout_pins sqrtOne [("a", nodePin)] [] 1 1 100 "a"
      (by norm_num) (by decide)
  refine ⟨v, hv, ?_⟩
  rw [hx]
  norm_num

/-- C2 amended: after `force_layout` runs at least one iteration with
`width ≥ 2` and `height ≥ 2`, every node's position (the pinned focus
node included) satisfies `0 ≤ x ≤ width-1` and `0 ≤ y ≤ height-1`.  (The
claim's `width > 0, height > 0` fails only at `width = 1` or
`height = 1`, where the unclamped focus position `width/2` or `height/2`
exceeds the bound; see the counterexample.) -/
theorem C2_bounds_amended (sqrtF : ℚ → ℚ) (nodes : NodeMap)
    (edges : List (String × String)) (width height : ℤ)
    (iterations : Nat) (central : Option String)
    (hit : 1 ≤ iterations) (hw : 2 ≤ width) (hh : 2 ≤ height) :
    ∀ p ∈ force_layout sqrtF nodes edges width height iterations central,
      0 ≤ p.2.x ∧ p.2.x ≤ (width : ℚ) - 1 ∧
      0 ≤ p.2.y ∧ p.2.y ≤ (height : ℚ) - 1 := by
  intro p hp
  unfold force_layout at hp
  by_cases hne : nodes = []
  · rw [if_pos hne] at hp
    simp at hp
  · rw [if_neg hne] at hp
    obtain ⟨m, rfl⟩ : ∃ m, iterations = m + 1 := ⟨iterations - 1, by omega⟩
    exact layoutLoop_bounds sqrtF _ edges width height central hw hh m
      nodes p hp

/-- Witness for C2 (amended): a concrete run satisfying the hypotheses
and the conclusion. -/
theorem C2_bounds_witness :
    (1 ≤ 1 ∧ (2 : ℤ) ≤ 2) ∧
    ∀ p ∈ force_layout sqrtOne [("a", nodePin)] [] 2 2 1 none,
      0 ≤ p.2.x ∧ p.2.x ≤ ((2 : ℤ) : ℚ) - 1 ∧
      0 ≤ p.2.y ∧ p.2.y ≤ ((2 : ℤ) : ℚ) - 1 :=
  ⟨⟨le_refl 1, le_refl 2⟩,
    C2_bounds_amended sqrtOne [("a", nodePin)] [] 2 2 1 none (le_refl 1)
      (le_refl 2) (le_refl 2)⟩

/-- C3 as stated is false: `find_links` deduplicates via a set of
*ordered* pairs, so a reference token `[[b]]` in task `a` together with
task `b` having `parent_id = a` yields two edges between `a` and `b`
(one per direction of discovery). -/
theorem C3_unordered_dedup_counterexample :
    (find_links [taskRef, taskChild]).countP
      (fun e => (e.1 == "a" && e.2 == "b") || (e.1 == "b" && e.2 == "a")) =
      2 := by
  decide

/-- C3 amended: `find_links` deduplicates edges as *ordered* pairs — the
returned collection contains at most one copy of any directed edge
`(A, B)`; two links discovered in the same direction collapse, while
links discovered in opposite directions remain as two edges (see the
counterexample). -/
theorem C3_ordered_dedup (tasks : List Task) :
    (find_links tasks).Nodup :=
  List.nodup_dedup _

/-- C4 as stated is false: a task whose `parent_id` equals its own id
produces a self-edge — the parent-link branch of `find_links` has no
self-reference guard. -/
theorem C4_no_self_edge_counterexample :
    ("a", "a") ∈ find_links [taskSelf] := by
  decide

/-- C4 amended: description references never produce self-edges (that
branch is guarded), so for every task set in which no task is its own
parent, `find_links` returns no self-edge.  A task with
`parent_id` equal to its own id does produce one (see the
counterexample). -/
theorem C4_no_self_edge_amended (tasks : List Task)
    (hpar : ∀ t ∈ tasks, t.parent_id ≠ some t.id) :
    ∀ e ∈ find_links tasks, e.1 ≠ e.2 := by
  intro e he
  unfold find_links at he
  rw [List.mem_dedup] at he
  rw [List.mem_flatMap] at he
  obtain ⟨t, ht, hmem⟩ := he
  unfold taskLinks at hmem
  rw [List.mem_append] at hmem
  cases hmem with
  | inl hdesc =>
    rw [List.mem_map] at hdesc
    obtain ⟨tid, htid, rfl⟩ := hdesc
    rw [List.mem_filter] at htid
    have := htid.2
    simp only [Bool.and_eq_true, decide_eq_true_eq] at this
    exact this.2
  | inr hpar' =>
    cases hp : t.parent_id with
    | none => rw [hp] at hpar'; simp at hpar'
    | some p =>
      rw [hp] at hpar'
      dsimp only at hpar'
      by_cases hc : (p ≠ "" && p ∈ tasks.map (·.id)) = true
      · rw [if_pos hc] at hpar'
        rw [List.mem_singleton] at hpar'
        subst hpar'
        intro habs
        exact hpar t ht (by rw [hp]; exact congrArg some habs.symm)
      · rw [if_neg hc] at hpar'
        simp at hpar'

/-- Witness for C4 (amended): a concrete task set with no self-parent,
satisfying the hypothesis and the conclusion. -/
theorem C4_no_self_edge_witness :
    (∀ t ∈ [taskRef, taskChild], t.parent_id ≠ some t.id) ∧
    ∀ e ∈ find_links [taskRef, taskChild], e.1 ≠ e.2 :=
  ⟨by decide, C4_no_self_edge_amended [taskRef, taskChild] (by decide)⟩

/-! ### Lemmas: edges with missing endpoints are no-ops -/

theorem edgeStep_missing (sqrtF : ℚ → ℚ) (k : ℚ) (central : Option String)
    (ns : NodeMap) (e : String × String)
    (h : lookupNode ns e.1 = none ∨ lookupNode ns e.2 = none) :
    edgeStep sqrtF k central ns e = ns := by
  unfold edgeStep
  cases h1 : lookupNode ns e.1 with
  | none => rfl
  | some n1 =>
    cases h2 : lookupNode ns e.2 with
    | none => rfl
    | some n2 =>
      rw [h1, h2] at h
      rcases h with h | h <;> exact absurd h (by simp)

theorem attract_filter (sqrtF : ℚ → ℚ) (k : ℚ) (central : Option String)
    (ns : NodeMap) :
    ∀ (edges : List (String × String)) (m : NodeMap),
      (∀ key, (lookupNode m key).isSome = (lookupNode ns key).isSome) →
      attract sqrtF k central edges m =
        attract sqrtF k central (edges.filter (goodEdge ns)) m := by
  intro edges
  induction edges with
  | nil => intro m _; rfl
  | cons e t ih =>
    intro m hm
    by_cases hg : goodEdge ns e = true
    · rw [List.filter_cons_of_pos hg]
      simp only [attract, List.foldl_cons]
      exact ih (edgeStep sqrtF k central m e) (fun key => by
        rw [isSome_lookup_edgeStep]; exact hm key)
    · rw [List.filter_cons_of_neg hg]
      have hskip : edgeStep sqrtF k central m e = m := by
        apply edgeStep_missing
        unfold goodEdge at hg
        simp only [Bool.and_eq_true, not_and_or, Bool.not_eq_true,
          Option.not_isSome, Option.isNone_iff_eq_none] at hg
        rcases hg with hg | hg
        · left
          have := hm e.1
          rw [hg] at this
          simpa using this
        · right
          have := hm e.2
          rw [hg] at this
          simpa using this
      simp only [attract, List.foldl_cons, hskip]
      exact ih m hm

theorem layoutStep_filter (sqrtF : ℚ → ℚ) (k : ℚ)
    (edges : List (String × String)) (width height : ℤ)
    (central : Option String) (ns m : NodeMap)
    (hm : ∀ key, (lookupNode m key).isSome = (lookupNode ns key).isSome) :
    layoutStep sqrtF k edges width height central m =
      layoutStep sqrtF k (edges.filter (goodEdge ns)) width height central
        m := by
  unfold layoutStep
  rw [attract_filter sqrtF k central ns edges (repulse sqrtF k m)
    (fun key => by rw [lookup_repulse, isSome_opt_map]; exact hm key)]

theorem layoutLoop_filter (sqrtF : ℚ → ℚ) (k : ℚ)
    (edges : List (String × String)) (width height : ℤ)
    (central : Option String) (ns : NodeMap) :
    ∀ (n : Nat) (m : NodeMap),
      (∀ key, (lookupNode m key).isSome = (lookupNode ns key).isSome) →
      layoutLoop sqrtF k edges width height central n m =
        layoutLoop sqrtF k (edges.filter (goodEdge ns)) width height central
          n m := by
  intro n
  induction n with
  | zero => intro m _; rfl
  | succ i ih =>
    intro m hm
    simp only [layoutLoop]
    rw [← layoutStep_filter sqrtF k edges width height central ns m hm]
    exact ih (layoutStep sqrtF k edges width height central m)
      (fun key => by rw [isSome_lookup_layoutStep]; exact hm key)

theorem edgeDraw_filter (ns : NodeMap) (g : Grid)
    (edges : List (String × String)) :
    edges.foldl (edgeDraw ns) g =
      (edges.filter (goodEdge ns)).foldl (edgeDraw ns) g := by
  induction edges generalizing g with
  | nil => rfl
  | cons e t ih =>
    by_cases hg : goodEdge ns e = true
    · rw [List.filter_cons_of_pos hg]
      simp only [List.foldl_cons]
      exact ih _
    · rw [List.filter_cons_of_neg hg]
      have hskip : edgeDraw ns g e = g := by
        unfold edgeDraw
        unfold goodEdge at hg
        cases h1 : lookupNode ns e.1 with
        | none => rfl
        | some n1 =>
          cases h2 : lookupNode ns e.2 with
          | none => rfl
          | some n2 => rw [h1, h2] at hg; simp at hg
      simp only [List.foldl_cons, hskip]
      exact ih g

/-- C7: both `force_layout` and `render_to_grid` silently skip every edge
at least one of whose endpoints is absent from the node map — each run is
equal to the run on the edge list with such edges filtered out, so all
other nodes and edges are processed identically. -/
theorem C7_missing_endpoint_edges_skipped (sqrtF : ℚ → ℚ) (ns : NodeMap)
    (edges : List (String × String)) (width height lw lh : ℤ)
    (iterations : Nat) (central : Option String) :
    force_layout sqrtF ns edges lw lh iterations central =
      force_layout sqrtF ns (edges.filter (goodEdge ns)) lw lh iterations
        central ∧
    render_to_grid ns edges width height central =
      render_to_grid ns (edges.filter (goodEdge ns)) width height central := by
  constructor
  · unfold force_layout
    by_cases hne : ns = []
    · rw [if_pos hne, if_pos hne]
    · rw [if_neg hne, if_neg hne]
      exact layoutLoop_filter sqrtF _ edges lw lh central ns iterations ns
        (fun _ => rfl)
  · unfold render_to_grid
    simp only
    rw [edgeDraw_filter]

/-! ### Termination of the Bresenham loop -/

/-- Invariant-carrying termination lemma for `bresLoop`: if the state is
reachable (positions offset from the endpoints by `p` x-steps and `q`
y-steps, with the error term determined by `p` and `q`) and the fuel
exceeds the remaining steps, the loop returns. -/
theorem bresLoop_reaches (x2 y2 dx dy sx sy : ℤ)
    (hdx : 0 ≤ dx) (hdy : dy ≤ 0)
    (hsx : sx = 1 ∨ sx = -1) (hsy : sy = 1 ∨ sy = -1) :
    ∀ (fuel : ℕ) (p q err x1 y1 : ℤ) (g : Grid),
      0 ≤ p → p ≤ dx → 0 ≤ q → q ≤ -dy →
      x2 - x1 = (dx - p) * sx →
      y2 - y1 = (-dy - q) * sy →
      err = dx * (1 + q) + dy * (1 + p) →
      (dx - p) + (-dy - q) < (fuel : ℤ) →
      (bresLoop x2 y2 dx dy sx sy fuel x1 y1 err g).isSome := by
  intro fuel
  induction fuel with
  | zero =>
    intro p q err x1 y1 g hp0 hpdx hq0 hqdy hx hy herr hf
    exfalso
    simp only [Nat.cast_zero] at hf
    omega
  | succ f ih =>
    intro p q err x1 y1 g hp0 hpdx hq0 hqdy hx hy herr hf
    have hsxne : sx ≠ 0 := by rcases hsx with h | h <;> simp [h]
    have hsyne : sy ≠ 0 := by rcases hsy with h | h <;> simp [h]
    have hxiff : x1 = x2 ↔ p = dx := by
      constructor
      · intro h
        rw [h] at hx
        have : (dx - p) * sx = 0 := by omega
        rcases mul_eq_zero.mp this with h' | h'
        · omega
        · exact absurd h' hsxne
      · intro h
        rw [h] at hx
        simp at hx
        omega
    have hyiff : y1 = y2 ↔ q = -dy := by
      constructor
      · intro h
        rw [h] at hy
        have : (-dy - q) * sy = 0 := by omega
        rcases mul_eq_zero.mp this with h' | h'
        · omega
        · exact absurd h' hsyne
      · intro h
        rw [h] at hy
        simp at hy
        omega
    simp only [bresLoop]
    by_cases hstop : x1 = x2 ∧ y1 = y2
    · rw [if_pos hstop]
      simp
    · rw [if_neg hstop]
      have hnotdone : p < dx ∨ q < -dy := by
        by_contra hcon
        push_neg at hcon
        exact hstop ⟨hxiff.mpr (by omega), hyiff.mpr (by omega)⟩
      -- x cannot overshoot: at p = dx the x-branch condition fails
      have hF1 : p = dx → ¬(dy ≤ 2 * err) := by
        intro hpd
        have hql : q ≤ -dy - 1 := by
          rcases hnotdone with h | h
          · omega
          · omega
        have hdy1 : dy ≤ -1 := by omega
        intro hcx
        have hkey : 2 * dx * (1 + q) ≤ 2 * dx * (-dy) :=
          mul_le_mul_of_nonneg_left (by omega) (by omega)
        nlinarith [herr]
      -- y cannot overshoot: at q = -dy the y-branch condition fails
      have hF2 : q = -dy → ¬(2 * err ≤ dx) := by
        intro hqd
        have hpl : p ≤ dx - 1 := by
          rcases hnotdone with h | h
          · omega
          · omega
        have hdx1 : 1 ≤ dx := by omega
        intro hcy
        have hkey : 2 * dy * (dx - 1) ≤ 2 * dy * p :=
          mul_le_mul_of_nonpos_left (by omega) (by omega)
        nlinarith [herr]
      by_cases hcx : dy ≤ 2 * err <;> by_cases hcy : 2 * err ≤ dx
      · -- both branches fire
        rw [if_pos hcx, if_pos hcy, if_pos hcx, if_pos hcy]
        have hplt : p < dx := by
          rcases eq_or_lt_of_le hpdx with h | h
          · exact absurd hcx (hF1 h)
          · exact h
        have hqlt : q < -dy := by
          rcases eq_or_lt_of_le hqdy with h | h
          · exact absurd hcy (hF2 (by omega))
          · exact h
        exact ih (p + 1) (q + 1) _ _ _ (plot g x1 y1) (by omega) (by omega)
          (by omega) (by omega)
          (by rw [show x2 - (x1 + sx) = (x2 - x1) - sx by ring, hx]; ring)
          (by rw [show y2 - (y1 + sy) = (y2 - y1) - sy by ring, hy]; ring)
          (by rw [herr]; ring)
          (by push_cast at hf ⊢; omega)
      · -- only the x branch fires
        rw [if_pos hcx, if_neg hcy, if_pos hcx, if_neg hcy]
        have hplt : p < dx := by
          rcases eq_or_lt_of_le hpdx with h | h
          · exact absurd hcx (hF1 h)
          · exact h
        exact ih (p + 1) q _ _ _ (plot g x1 y1) (by omega) (by omega)
          hq0 hqdy
          (by rw [show x2 - (x1 + sx) = (x2 - x1) - sx by ring, hx]; ring)
          hy
          (by rw [herr]; ring)
          (by push_cast at hf ⊢; omega)
      · -- only the y branch fires
        rw [if_neg hcx, if_pos hcy, if_neg hcx, if_pos hcy]
        have hqlt : q < -dy := by
          rcases eq_or_lt_of_le hqdy with h | h
          · exact absurd hcy (hF2 (by omega))
          · exact h
        exact ih p (q + 1) _ _ _ (plot g x1 y1) hp0 hpdx (by omega) (by omega)
          hx
          (by rw [show y2 - (y1 + sy) = (y2 - y1) - sy by ring, hy]; ring)
          (by rw [herr]; ring)
          (by push_cast at hf ⊢; omega)
      · -- impossible: at least one branch always fires
        exfalso
        omega

/-- C9: `draw_line`'s Bresenham loop terminates for every pair of integer
endpoints and every grid — with the fuel `draw_line` supplies it returns a
grid (reaching the break at `(x2, y2)`), and `draw_line` returns that
grid, never the dead fallback. -/
theorem C9_draw_line_terminates (g : Grid) (x1 y1 x2 y2 : ℤ) :
    ∃ g', bresLoop x2 y2 |x2 - x1| (-|y2 - y1|)
        (if x1 < x2 then 1 else -1) (if y1 < y2 then 1 else -1)
        (|x2 - x1| - -|y2 - y1| + 1).toNat x1 y1
        (|x2 - x1| + -|y2 - y1|) g = some g' ∧
      draw_line g x1 y1 x2 y2 = g' := by
  have hterm := bresLoop_reaches x2 y2 |x2 - x1| (-|y2 - y1|)
    (if x1 < x2 then 1 else -1) (if y1 < y2 then 1 else -1)
    (abs_nonneg _) (neg_nonpos.mpr (abs_nonneg _))
    (by split <;> simp) (by split <;> simp)
    (|x2 - x1| - -|y2 - y1| + 1).toNat 0 0
    (|x2 - x1| + -|y2 - y1|) x1 y1 g
    le_rfl (abs_nonneg _) le_rfl (by simp [abs_nonneg])
    (by
      split
      · rw [abs_of_pos (by omega)]; ring
      · rw [abs_of_nonpos (by omega)]; ring)
    (by
      split
      · rw [abs_of_pos (by omega)]; ring
      · rw [abs_of_nonpos (by omega)]; ring)
    (by ring)
    (by
      rw [Int.toNat_of_nonneg
        (by have := abs_nonneg (x2 - x1); have := abs_nonneg (y2 - y1); omega)]
      omega)
  obtain ⟨g', hg'⟩ := Option.isSome_iff_exists.mp hterm
  refine ⟨g', hg', ?_⟩
  unfold draw_line
  simp only
  rw [hg']
  rfl

/-! ### Shape preservation of all grid writes -/

theorem gridShape_setCell (g : Grid) (h w y x : Nat) (c : Char)
    (hs : gridShape g h w) : gridShape (setCell g y x c) h w := by
  obtain ⟨hl, hr⟩ := hs
  by_cases hy : y < g.length
  · constructor
    · rw [setCell, List.length_set, hl]
    · intro row hrow
      rcases List.mem_or_eq_of_mem_set hrow with hmem | rfl
      · exact hr row hmem
      · rw [List.length_set, List.getD_eq_getElem g [] hy]
        exact hr _ (List.getElem_mem hy)
  · rw [setCell, List.set_eq_of_length_le (by omega)]
    exact ⟨hl, hr⟩

theorem gridShape_plot (g : Grid) (h w : Nat) (x y : ℤ)
    (hs : gridShape g h w) : gridShape (plot g x y) h w := by
  unfold plot
  split
  · exact gridShape_setCell g h w _ _ '.' hs
  · exact hs

theorem gridShape_bresLoop (x2 y2 dx dy sx sy : ℤ) (h w : Nat) :
    ∀ (fuel : Nat) (x1 y1 err : ℤ) (g g' : Grid), gridShape g h w →
      bresLoop x2 y2 dx dy sx sy fuel x1 y1 err g = some g' →
      gridShape g' h w := by
  intro fuel
  induction fuel with
  | zero => intro x1 y1 err g g' _ hcontra; exact absurd hcontra (by simp [bresLoop])
  | succ f ih =>
    intro x1 y1 err g g' hs hrun
    simp only [bresLoop] at hrun
    split at hrun
    · cases hrun
      exact gridShape_plot g h w x1 y1 hs
    · exact ih _ _ _ _ g' (gridShape_plot g h w x1 y1 hs) hrun

theorem gridShape_draw_line (g : Grid) (h w : Nat) (x1 y1 x2 y2 : ℤ)
    (hs : gridShape g h w) : gridShape (draw_line g x1 y1 x2 y2) h w := by
  unfold draw_line
  simp only
  cases hrun : bresLoop x2 y2 |x2 - x1| (-|y2 - y1|)
      (if x1 < x2 then 1 else -1) (if y1 < y2 then 1 else -1)
      (|x2 - x1| - -|y2 - y1| + 1).toNat x1 y1 (|x2 - x1| + -|y2 - y1|) g with
  | none => exact hs
  | some g' =>
    simp only [Option.getD_some]
    exact gridShape_bresLoop x2 y2 _ _ _ _ h w _ x1 y1 _ g g' hs hrun

theorem gridShape_edgeDraw (ns : NodeMap) (g : Grid) (h w : Nat)
    (e : String × String) (hs : gridShape g h w) :
    gridShape (edgeDraw ns g e) h w := by
  unfold edgeDraw
  cases lookupNode ns e.1 with
  | none => exact hs
  | some n1 =>
    cases lookupNode ns e.2 with
    | none => exact hs
    | some n2 => exact gridShape_draw_line g h w _ _ _ _ hs

theorem gridShape_writeChars (h w : Nat) (width : ℤ) :
    ∀ (cs : List Char) (g : Grid) (y x : ℤ), gridShape g h w →
      gridShape (writeChars g y x width cs) h w := by
  intro cs
  induction cs with
  | nil => intro g y x hs; exact hs
  | cons c t ih =>
    intro g y x hs
    simp only [writeChars]
    apply ih
    split
    · exact gridShape_setCell g h w _ _ c hs
    · exact hs

theorem gridShape_drawLabel (width height : ℤ) (central : Option String)
    (g : Grid) (h w : Nat) (p : String × Node) (hs : gridShape g h w) :
    gridShape (drawLabel width height central g p) h w := by
  simp only [drawLabel]
  split
  · exact gridShape_writeChars h w width _ g _ _ hs
  · exact hs

theorem gridShape_foldl_edgeDraw (ns : NodeMap) (h w : Nat) :
    ∀ (edges : List (String × String)) (g : Grid), gridShape g h w →
      gridShape (edges.foldl (edgeDraw ns) g) h w := by
  intro edges
  induction edges with
  | nil => intro g hs; exact hs
  | cons e t ih =>
    intro g hs
    exact ih _ (gridShape_edgeDraw ns g h w e hs)

theorem gridShape_foldl_drawLabel (width height : ℤ)
    (central : Option String) (h w : Nat) :
    ∀ (ns : NodeMap) (g : Grid), gridShape g h w →
      gridShape (ns.foldl (drawLabel width height central) g) h w := by
  intro ns
  induction ns with
  | nil => intro g hs; exact hs
  | cons p t ih =>
    intro g hs
    exact ih _ (gridShape_drawLabel width height central g h w p hs)

/-- C10: `render_to_grid` never writes outside the `height × width` grid,
for arbitrary node positions (negative or beyond the bounds included):
every cell write in edge drawing and label drawing is bounds-guarded, so
the result always has exactly `height` rows of exactly `width` cells. -/
theorem C10_render_within_bounds (nodes : NodeMap)
    (edges : List (String × String)) (width height : ℤ)
    (central_node_id : Option String) :
    (render_to_grid nodes edges width height central_node_id).length =
      height.toNat ∧
    (render_to_grid nodes edges width height central_node_id).all
      (fun row => row.length == width.toNat) = true := by
  have hs0 : gridShape
      (List.replicate height.toNat (List.replicate width.toNat ' '))
      height.toNat width.toNat := by
    constructor
    · exact List.length_replicate _ _
    · intro row hrow
      rw [List.eq_of_mem_replicate hrow]
      exact List.length_replicate _ _
  have hs : gridShape (render_to_grid nodes edges width height
      central_node_id) height.toNat width.toNat := by
    unfold render_to_grid
    simp only
    exact gridShape_foldl_drawLabel width height central_node_id _ _ nodes _
      (gridShape_foldl_edgeDraw nodes _ _ edges _ hs0)
  refine ⟨hs.1, ?_⟩
  rw [List.all_eq_true]
  intro row hrow
  simpa using hs.2 row hrow

/-! ### Cell-level lemmas for label writing -/

theorem getCell_setCell_self (g : Grid) (hN wN y x : Nat) (c : Char)
    (hs : gridShape g hN wN) (hy : y < hN) (hx : x < wN) :
    getCell (setCell g y x c) y x = c := by
  have hylen : y < g.length := by rw [hs.1]; exact hy
  have hrowlen : (g.getD y []).length = wN := by
    rw [List.getD_eq_getElem g [] hylen]
    exact hs.2 _ (List.getElem_mem hylen)
  unfold getCell setCell
  rw [List.getD_eq_getElem _ [] (by rw [List.length_set]; exact hylen)]
  rw [List.getElem_set_self _]
  rw [List.getD_eq_getElem _ ' ' (by rw [List.length_set, hrowlen]; exact hx)]
  exact List.getElem_set_self _

theorem getD_set_ne_row (g : Grid) (y ya : Nat) (r : List Char)
    (h : ya ≠ y) : (g.set y r).getD ya [] = g.getD ya [] := by
  rw [List.getD_eq_getElem?_getD, List.getElem?_set_ne (fun hc => h hc.symm),
    ← List.getD_eq_getElem?_getD]

theorem getD_set_self_row (g : Grid) (y : Nat) (r : List Char)
    (h : y < g.length) : (g.set y r).getD y [] = r := by
  rw [List.getD_eq_getElem _ [] (by rw [List.length_set]; exact h)]
  exact List.getElem_set_self _

theorem getD_set_ne_char (row : List Char) (x xa : Nat) (c : Char)
    (h : xa ≠ x) : (row.set x c).getD xa ' ' = row.getD xa ' ' := by
  rw [List.getD_eq_getElem?_getD, List.getElem?_set_ne (fun hc => h hc.symm),
    ← List.getD_eq_getElem?_getD]

theorem getCell_setCell_ne (g : Grid) (y x : Nat) (c : Char) (ya xa : Nat)
    (h : ya ≠ y ∨ xa ≠ x) :
    getCell (setCell g y x c) ya xa = getCell g ya xa := by
  rcases h with h | h
  · unfold getCell setCell
    rw [getD_set_ne_row g y ya _ h]
  · by_cases hy : ya = y
    · subst hy
      by_cases hlen : ya < g.length
      · unfold getCell setCell
        rw [getD_set_self_row g ya _ hlen, getD_set_ne_char _ x xa c h]
      · unfold setCell
        rw [List.set_eq_of_length_le (by omega)]
    · unfold getCell setCell
      rw [getD_set_ne_row g y ya _ hy]

/-- Cells on another row, or on a column left of the write position, are
untouched by `writeChars`. -/
theorem getCell_writeChars_outside (width : ℤ) :
    ∀ (cs : List Char) (g : Grid) (y x : ℤ) (ya xa : Nat), 0 ≤ x →
      (ya ≠ y.toNat ∨ (xa : ℤ) < x) →
      getCell (writeChars g y x width cs) ya xa = getCell g ya xa := by
  intro cs
  induction cs with
  | nil => intro g y x ya xa _ _; rfl
  | cons c t ih =>
    intro g y x ya xa hx0 h
    simp only [writeChars]
    rw [ih _ y (x + 1) ya xa (by omega) (h.imp (fun hy => hy) (fun hx => by omega))]
    split
    · rw [getCell_setCell_ne]
      rcases h with h | h
      · exact Or.inl h
      · refine Or.inr (fun hcontra => ?_)
        rw [hcontra] at h
        omega
    · rfl

/-- The character written `i` places into `writeChars` lands at column
`x + i` of row `y` when the whole run stays within `width`. -/
theorem getCell_writeChars_get (hN wN : Nat) (width : ℤ)
    (hw : (wN : ℤ) = width) :
    ∀ (cs : List Char) (g : Grid) (y x : ℤ) (i : Nat) (hi : i < cs.length),
      gridShape g hN wN → 0 ≤ y → y < (hN : ℤ) → 0 ≤ x →
      x + (i : ℤ) < width →
      getCell (writeChars g y x width cs) y.toNat (x + (i : ℤ)).toNat =
        cs.get ⟨i, hi⟩ := by
  intro cs
  induction cs with
  | nil => intro g y x i hi; exact absurd hi (by simp)
  | cons c t ih =>
    intro g y x i hi hs hy0 hy hx0 hxi
    have hxlt : x < width := by omega
    simp only [writeChars, if_pos hxlt]
    cases i with
    | zero =>
      rw [show x + ((0 : Nat) : ℤ) = x by simp]
      rw [getCell_writeChars_outside width t _ y (x + 1) y.toNat x.toNat
        (by omega) (Or.inr (by omega))]
      exact getCell_setCell_self g hN wN _ _ c hs (by omega) (by omega)
    | succ j =>
      rw [show x + ((j + 1 : Nat) : ℤ) = (x + 1) + (j : ℤ) by push_cast; ring]
      exact ih (setCell g y.toNat x.toNat c) y (x + 1) j
        (by simpa using Nat.lt_of_succ_lt_succ hi)
        (gridShape_setCell g hN wN _ _ c hs) hy0 hy (by omega) (by omega)

set_option maxRecDepth 4000 in
/-- C5 as stated is false: a node whose label does not entirely fit left
of the right margin is skipped wholly — no in-bounds prefix is drawn.
Concretely, one node at integer position `(3, 0)` on a `5 × 1` canvas has
label `[t]` and rows `0 ≤ 0 < 1`, its label characters at columns `3` and
`4` are in bounds, yet the rendered grid holds a blank at `(3, 0)`, not
`[`. -/
theorem C5_label_prefix_counterexample :
    (∀ (nodes : NodeMap) (edges : List (String × String))
        (width height : ℤ) (central : Option String), ∀ p ∈ nodes,
        0 ≤ pyInt p.2.y → pyInt p.2.y < height →
        ∀ (i : Nat) (hi : i < (nodeLabel central p).toList.length),
          0 ≤ pyInt p.2.x + (i : ℤ) → pyInt p.2.x + (i : ℤ) < width →
          getCell (render_to_grid nodes edges width height central)
              (pyInt p.2.y).toNat (pyInt p.2.x + (i : ℤ)).toNat =
            (nodeLabel central p).toList.get ⟨i, hi⟩) ↔ False := by
  constructor
  · intro hclaim
    have h := hclaim [("a", nodePin)] [] 5 1 none ("a", nodePin)
      (List.mem_singleton.mpr rfl) (by decide) (by decide) 0 (by decide)
      (by decide) (by decide)
    revert h
    decide
  · exact False.elim

/-- C5 amended: `drawLabel` is all-or-nothing.  When the integer-truncated
position passes the guard `0 ≤ y < height` and
`0 ≤ x < width - len(label)`, the whole label is written left-to-right at
row `y` starting at column `x`, each character unconditionally overwriting
the previous cell content (edge dots included); otherwise nothing at all
is drawn — in particular no in-bounds prefix of a partially fitting label
ever appears. -/
theorem C5_label_amended (width height : ℤ) (central : Option String)
    (g : Grid) (p : String × Node)
    (hs : gridShape g height.toNat width.toNat) :
    (¬(0 ≤ pyInt p.2.y ∧ pyInt p.2.y < height ∧ 0 ≤ pyInt p.2.x ∧
        pyInt p.2.x < width - ((nodeLabel central p).length : ℤ)) →
      drawLabel width height central g p = g) ∧
    ((0 ≤ pyInt p.2.y ∧ pyInt p.2.y < height ∧ 0 ≤ pyInt p.2.x ∧
        pyInt p.2.x < width - ((nodeLabel central p).length : ℤ)) →
      ∀ (i : Nat) (hi : i < (nodeLabel central p).toList.length),
        getCell (drawLabel width height central g p)
            (pyInt p.2.y).toNat (pyInt p.2.x + (i : ℤ)).toNat =
          (nodeLabel central p).toList.get ⟨i, hi⟩) := by
  constructor
  · intro hguard
    simp only [drawLabel]
    rw [if_neg hguard]
  · intro hguard i hi
    obtain ⟨hy0, hy, hx0, hx⟩ := hguard
    have hlen : ((nodeLabel central p).length : ℤ) =
        ((nodeLabel central p).toList.length : ℤ) := rfl
    have hwpos : (0 : ℤ) ≤ width := by omega
    simp only [drawLabel]
    rw [if_pos ⟨hy0, hy, hx0, hx⟩]
    apply getCell_writeChars_get height.toNat width.toNat width
      (by omega) _ g (pyInt p.2.y) (pyInt p.2.x) i hi hs hy0 (by omega)
      hx0 (by omega)

/-- Witness for C5 (amended): a concrete label written over a fully
dotted grid, the hypotheses discharged at that input. -/
theorem C5_label_witness :
    gridShape gDots (1 : ℤ).toNat (7 : ℤ).toNat ∧
    ((0 ≤ pyInt ((("a", nodePin) : String × Node)).2.y ∧
        pyInt (("a", nodePin) : String × Node).2.y < 1 ∧
        0 ≤ pyInt (("a", nodePin) : String × Node).2.x ∧
        pyInt (("a", nodePin) : String × Node).2.x <
          7 - ((nodeLabel none ("a", nodePin)).length : ℤ)) →
      ∀ (i : Nat) (hi : i < (nodeLabel none ("a", nodePin)).toList.length),
        getCell (drawLabel 7 1 none gDots ("a", nodePin))
            (pyInt (("a", nodePin) : String × Node).2.y).toNat
            (pyInt (("a", nodePin) : String × Node).2.x + (i : ℤ)).toNat =
          (nodeLabel none ("a", nodePin)).toList.get ⟨i, hi⟩) :=
  ⟨by decide, (C5_label_amended 7 1 none gDots ("a", nodePin) (by decide)).2⟩

/-! ### Fixed points of the simulation and concrete pipeline runs -/

theorem layoutLoop_fixed (sqrtF : ℚ → ℚ) (k : ℚ)
    (edges : List (String × String)) (width height : ℤ)
    (central : Option String) (ns : NodeMap)
    (hfix : layoutStep sqrtF k edges width height central ns = ns) :
    ∀ n : Nat, layoutLoop sqrtF k edges width height central n ns = ns := by
  intro n
  induction n with
  | zero => rfl
  | succ m ih =>
    show layoutLoop sqrtF k edges width height central m
      (layoutStep sqrtF k edges width height central ns) = ns
    rw [hfix]
    exact ih

/-- The full pipeline on the one-task input under the process-A hash:
the single node starts at `(3, -1)`, is clamped to `(3, 0)` on the inset
4 × 4 canvas, and stays there for all 100 iterations. -/
theorem generate_soloA_eval :
    generate_ascii_graph sqrtOne hashZero [taskSolo] 16 8 none =
      gridToString (render_to_grid [("a", nSoloA1)] [] 16 8 none) := by
  have hbuild : buildNodes hashZero 16 8 [taskSolo] = [("a", nSoloA0)] := by
    simp [buildNodes, dictInsert, lookupNode, hashZero, taskSolo, nSoloA0,
      Node.mk.injEq]
    norm_num
  have hedges : find_links [taskSolo] = [] := by decide
  have hforce : force_layout sqrtOne [("a", nSoloA0)] [] 4 4 100 none =
      [("a", nSoloA1)] := by
    have h1 : layoutStep sqrtOne 1 [] 4 4 none [("a", nSoloA0)] =
        [("a", nSoloA1)] := by
      simp [layoutStep, attract, repulse, repulseNode, integrate,
        integrateNode, sqrtOne, nSoloA0, nSoloA1, Node.mk.injEq, min_def,
        max_def]
      norm_num
    have h2 : layoutStep sqrtOne 1 [] 4 4 none [("a", nSoloA1)] =
        [("a", nSoloA1)] := by
      simp [layoutStep, attract, repulse, repulseNode, integrate,
        integrateNode, sqrtOne, nSoloA1, Node.mk.injEq, min_def, max_def]
      norm_num
    have hstep : force_layout sqrtOne [("a", nSoloA0)] [] 4 4 100 none =
        layoutLoop sqrtOne 1 [] 4 4 none 99
          (layoutStep sqrtOne 1 [] 4 4 none [("a", nSoloA0)]) := rfl
    rw [hstep, h1, layoutLoop_fixed sqrtOne 1 [] 4 4 none [("a", nSoloA1)] h2]
  unfold generate_ascii_graph
  rw [if_neg (by decide : ¬([taskSolo] = []))]
  simp only
  rw [hedges, hbuild]
  rw [if_neg (by decide :
    ¬(([] : List (String × String)) = [] ∧ 1 < [taskSolo].length))]
  rw [show (16 : ℤ) - 12 = 4 from rfl, show (8 : ℤ) - 4 = 4 from rfl, hforce]

/-- The full pipeline on the same one-task input under the process-B
hash: the node instead starts at `(10, 6)` and is clamped to `(3, 3)`. -/
theorem generate_soloB_eval :
    generate_ascii_graph sqrtOne hashSeven [taskSolo] 16 8 none =
      gridToString (render_to_grid [("a", nSoloB1)] [] 16 8 none) := by
  have hbuild : buildNodes hashSeven 16 8 [taskSolo] = [("a", nSoloB0)] := by
    simp [buildNodes, dictInsert, lookupNode, hashSeven, taskSolo, nSoloB0,
      Node.mk.injEq]
    norm_num
  have hedges : find_links [taskSolo] = [] := by decide
  have hforce : force_layout sqrtOne [("a", nSoloB0)] [] 4 4 100 none =
      [("a", nSoloB1)] := by
    have h1 : layoutStep sqrtOne 1 [] 4 4 none [("a", nSoloB0)] =
        [("a", nSoloB1)] := by
      simp [layoutStep, attract, repulse, repulseNode, integrate,
        integrateNode, sqrtOne, nSoloB0, nSoloB1, Node.mk.injEq, min_def,
        max_def]
      norm_num
    have h2 : layoutStep sqrtOne 1 [] 4 4 none [("a", nSoloB1)] =
        [("a", nSoloB1)] := by
      simp [layoutStep, attract, repulse, repulseNode, integrate,
        integrateNode, sqrtOne, nSoloB1, Node.mk.injEq, min_def, max_def]
      norm_num
    have hstep : force_layout sqrtOne [("a", nSoloB0)] [] 4 4 100 none =
        layoutLoop sqrtOne 1 [] 4 4 none 99
          (layoutStep sqrtOne 1 [] 4 4 none [("a", nSoloB0)]) := rfl
    rw [hstep, h1, layoutLoop_fixed sqrtOne 1 [] 4 4 none [("a", nSoloB1)] h2]
  unfold generate_ascii_graph
  rw [if_neg (by decide : ¬([taskSolo] = []))]
  simp only
  rw [hedges, hbuild]
  rw [if_neg (by decide :
    ¬(([] : List (String × String)) = [] ∧ 1 < [taskSolo].length))]
  rw [show (16 : ℤ) - 12 = 4 from rfl, show (8 : ℤ) - 4 = 4 from rfl, hforce]

/-- The full pipeline on the two-task input (one parent edge) under the
process-A hash: both nodes start stacked at `(2, -2)`, all forces cancel,
and both are clamped to `(1, 0)` on the inset 2 × 2 canvas. -/
theorem generate_pair_eval :
    generate_ascii_graph sqrtOne hashZero [taskPlain, taskChild] 14 6 none =
      gridToString (render_to_grid [("a", nPairA1), ("b", nPairB1)]
        [("b", "a")] 14 6 none) := by
  have hbuild : buildNodes hashZero 14 6 [taskPlain, taskChild] =
      [("a", nPairA0), ("b", nPairB0)] := by
    simp [buildNodes, dictInsert, lookupNode, updateNode, hashZero,
      taskPlain, taskChild, nPairA0, nPairB0, Node.mk.injEq]
    norm_num
  have hedges : find_links [taskPlain, taskChild] = [("b", "a")] := by decide
  have hforce : force_layout sqrtOne [("a", nPairA0), ("b", nPairB0)]
      [("b", "a")] 2 2 100 none = [("a", nPairA1), ("b", nPairB1)] := by
    have h1 : layoutStep sqrtOne 1 [("b", "a")] 2 2 none
        [("a", nPairA0), ("b", nPairB0)] =
        [("a", nPairA1), ("b", nPairB1)] := by
      simp [layoutStep, attract, edgeStep, updateNode, lookupNode, repulse,
        repulseNode, integrate, integrateNode, sqrtOne, nPairA0, nPairB0,
        nPairA1, nPairB1, Node.mk.injEq, min_def, max_def]
      norm_num
    have h2 : layoutStep sqrtOne 1 [("b", "a")] 2 2 none
        [("a", nPairA1), ("b", nPairB1)] =
        [("a", nPairA1), ("b", nPairB1)] := by
      simp [layoutStep, attract, edgeStep, updateNode, lookupNode, repulse,
        repulseNode, integrate, integrateNode, sqrtOne, nPairA1, nPairB1,
        Node.mk.injEq, min_def, max_def]
      norm_num
    have hstep : force_layout sqrtOne [("a", nPairA0), ("b", nPairB0)]
        [("b", "a")] 2 2 100 none =
        layoutLoop sqrtOne 1 [("b", "a")] 2 2 none 99
          (layoutStep sqrtOne 1 [("b", "a")] 2 2 none
            [("a", nPairA0), ("b", nPairB0)]) := rfl
    rw [hstep, h1, layoutLoop_fixed sqrtOne 1 [("b", "a")] 2 2 none
      [("a", nPairA1), ("b", nPairB1)] h2]
  unfold generate_ascii_graph
  rw [if_neg (by decide : ¬([taskPlain, taskChild] = []))]
  simp only
  rw [hedges, hbuild]
  rw [if_neg (by decide : ¬(([("b", "a")] : List (String × String)) = [] ∧
    1 < [taskPlain, taskChild].length))]
  rw [show (14 : ℤ) - 12 = 2 from rfl, show (6 : ℤ) - 4 = 2 from rfl, hforce]

/-- C6 as stated is false: two tasks joined by exactly one edge (fewer
than 2) do not yield the "no relationships" placeholder — the code only
takes that branch when the edge list is empty, so a rendered grid string
is returned instead. -/
theorem C6_single_edge_counterexample :
    (find_links [taskPlain, taskChild]).length = 1 ∧
    1 < ([taskPlain, taskChild] : List Task).length ∧
    generate_ascii_graph sqrtOne hashZero [taskPlain, taskChild] 14 6 none ≠
      "No links or parent-child relationships found between tasks." ∧
    generate_ascii_graph sqrtOne hashZero [taskPlain, taskChild] 14 6 none ≠
      "No tasks to build a graph from." := by
  refine ⟨by decide, by decide, ?_, ?_⟩ <;> rw [generate_pair_eval] <;> decide

/-- C6 amended: `generate_ascii_graph` returns a fixed placeholder in
exactly two cases — an empty task collection yields the "no tasks"
message, and a non-empty collection with *zero* edges and more than one
task yields the "no relationships" message; in every other case the
layout is run and the rendered grid string is returned.  (The claim's
"fewer than 2 edges" is wrong: one edge already renders a grid; see the
counterexample.) -/
theorem C6_branching_amended (sqrtF : ℚ → ℚ) (hashF : String → Int)
    (tasks : List Task) (width height : ℤ) (central : Option String) :
    (tasks = [] →
      generate_ascii_graph sqrtF hashF tasks width height central =
        "No tasks to build a graph from.") ∧
    (tasks ≠ [] → find_links tasks = [] → 1 < tasks.length →
      generate_ascii_graph sqrtF hashF tasks width height central =
        "No links or parent-child relationships found between tasks.") ∧
    (tasks ≠ [] → (find_links tasks ≠ [] ∨ tasks.length ≤ 1) →
      generate_ascii_graph sqrtF hashF tasks width height central =
        gridToString (render_to_grid
          (force_layout sqrtF (buildNodes hashF width height tasks)
            (find_links tasks) (width - 12) (height - 4) 100 central)
          (find_links tasks) width height central)) := by
  refine ⟨?_, ?_, ?_⟩
  · intro h
    unfold generate_ascii_graph
    rw [if_pos h]
  · intro h1 h2 h3
    unfold generate_ascii_graph
    rw [if_neg h1]
    simp only
    rw [if_pos ⟨h2, h3⟩]
  · intro h1 h2
    unfold generate_ascii_graph
    rw [if_neg h1]
    simp only
    rw [if_neg (by
      rintro ⟨he, hl⟩
      rcases h2 with h2 | h2
      · exact h2 he
      · omega)]

/-- Witness for C6 (amended): the empty-input branch at a concrete
input. -/
theorem C6_branching_witness :
    (([] : List Task) = []) ∧
    generate_ascii_graph sqrtOne hashZero [] 14 6 none =
      "No tasks to build a graph from." :=
  ⟨rfl, (C6_branching_amended sqrtOne hashZero [] 14 6 none).1 rfl⟩

/-- C8: the pipeline's initial node positions depend on Python's builtin
string `hash`, which is salted per process — modelling the hashes seen by
two processes as `hashZero` and `hashSeven`, the same one-task input
renders its node on row 0 in one run and row 3 in the other, so two runs
need not produce byte-identical output (the code contradicts the spec's
requirement of a stable hash; with any one fixed hash function the
pipeline is a pure function of its arguments). -/
theorem C8_hash_salt_breaks_determinism :
    (generate_ascii_graph sqrtOne hashZero [taskSolo] 16 8 none =
      generate_ascii_graph sqrtOne hashSeven [taskSolo] 16 8 none) ↔
      False := by
  rw [generate_soloA_eval, generate_soloB_eval]
  constructor
  · intro h
    revert h
    decide
  · exact False.elim

end NeuroPlan
